import Mathlib

/-!
# Verification of the togo task-manager domain model

Shallow embedding of the `internal/model` package of the togo repository:
task statuses (`task_status.go`), domain error sentinels (`errors.go`),
task identifiers (`task_id.go`), the task entity and its factory
(`task.go`), and the task filter (`task_filter.go`).

Go strings are modelled as Lean `String`, `time.Time` as `Int`
(nanoseconds since the epoch: `Before`/`After` are `<`/`>`), Go slices as
Lean lists, `[16]byte` UUID values as length-16 lists of bytes, and the
side effects of `uuid.New()` / `time.Now()` as explicit parameters.
-/

namespace Togo

/-! ## Statuses (TaskStatus, task_status.go) -/

/-- Go `type TaskStatus string` -/
abbrev TaskStatus := String

def StatusPool : TaskStatus := "pool"

def StatusToday : TaskStatus := "today"

def StatusDone : TaskStatus := "done"

/-- Go `func (s TaskStatus) Valid() bool`: a switch accepting exactly
`StatusPool`, `StatusToday`, `StatusDone`. -/
def TaskStatus.Valid (s : TaskStatus) : Bool :=
  s == StatusPool || s == StatusToday || s == StatusDone

/-! ## Domain error sentinels (errors.go)

The five package-level `errors.New` values.  `errors.New` allocates a
fresh value, so the five sentinels are pairwise distinct; an inductive
type with five constructors captures exactly that. -/

inductive GoErr where
  | ErrTaskNotFound
  | ErrInvalidStatus
  | ErrInvalidStateTransition
  | ErrEmptyTitle
  | ErrDuplicateTaskID
deriving DecidableEq, Repr

/-- The message each sentinel was constructed with (`errors.New(...)`). -/
def GoErr.message : GoErr → String
  | .ErrTaskNotFound => "task not found"
  | .ErrInvalidStatus => "invalid task status"
  | .ErrInvalidStateTransition => "invalid state transition"
  | .ErrEmptyTitle => "task title cannot be empty"
  | .ErrDuplicateTaskID => "task with this ID already exists"

/-! ## Task identifiers (task_id.go)

`type TaskID uuid.UUID` where `uuid.UUID` is `[16]byte`. -/

/-- A `[16]byte` UUID value: sixteen bytes. -/
structure TaskID where
  bytes : List Nat
  len16 : bytes.length = 16
  lt256 : ∀ b ∈ bytes, b < 256

theorem TaskID.ext' {a b : TaskID} (h : a.bytes = b.bytes) : a = b := by
  cases a; cases b
  simp only at h
  subst h
  rfl

/-- Go `uuid.Nil`, the all-zero UUID. -/
def uuidNil : TaskID :=
  ⟨List.replicate 16 0, by simp, by intro b hb; simp at hb; omega⟩

/-- Go `func (t TaskID) Equals(other TaskID) bool { return t == other }`
(Go `==` on `[16]byte` compares the bytes). -/
def TaskID.Equals (t other : TaskID) : Bool :=
  t.bytes == other.bytes

/-- Go `func (t TaskID) NotEquals(other TaskID) bool { return t != other }` -/
def TaskID.NotEquals (t other : TaskID) : Bool :=
  !(t.bytes == other.bytes)

/-- Go `func (t TaskID) IsEmpty() bool { return t == TaskID(uuid.Nil) }` -/
def TaskID.IsEmpty (t : TaskID) : Bool :=
  t.bytes == uuidNil.bytes

/-! ## UUID rendering and parsing (google/uuid `String` and `Parse`,
used by `TaskID.String` and `ParseTaskID` in task_id.go) -/

/-- One nibble of `xtob`: hex digit value of a character, accepting
`0-9`, `a-f`, `A-F` (the `xvalues` table of google/uuid). -/
def hexVal (c : Char) : Option Nat :=
  if 48 ≤ c.toNat && c.toNat ≤ 57 then some (c.toNat - 48)
  else if 97 ≤ c.toNat && c.toNat ≤ 102 then some (c.toNat - 87)
  else if 65 ≤ c.toNat && c.toNat ≤ 70 then some (c.toNat - 55)
  else none

/-- Go `xtob(x1, x2 byte) (byte, bool)`: two hex characters to one byte. -/
def xtob (c1 c2 : Char) : Option Nat :=
  match hexVal c1, hexVal c2 with
  | some h, some l => some (h * 16 + l)
  | _, _ => none

/-- Consecutive hex-character pairs to bytes (the per-pair `xtob` loop
of `uuid.Parse`). -/
def parseHexPairs : List Char → Option (List Nat)
  | [] => some []
  | c1 :: c2 :: rest =>
    match xtob c1 c2, parseHexPairs rest with
    | some b, some bs => some (b :: bs)
    | _, _ => none
  | _ => none

/-- The 36-character canonical branch of `uuid.Parse`: pattern
`xxxxxxxx-xxxx-xxxx-xxxx-xxxxxxxxxxxx`, dashes at indices 8, 13, 18,
23, and the sixteen `xtob` pairs at indices
0,2,4,6, 9,11, 14,16, 19,21, 24,26,28,30,32,34. -/
def parseCanonical : List Char → Option (List Nat)
  | a1 :: a2 :: a3 :: a4 :: a5 :: a6 :: a7 :: a8 :: h1 ::
    b1 :: b2 :: b3 :: b4 :: h2 ::
    c1 :: c2 :: c3 :: c4 :: h3 ::
    d1 :: d2 :: d3 :: d4 :: h4 ::
    e1 :: e2 :: e3 :: e4 :: e5 :: e6 :: e7 :: e8 :: e9 :: e10 :: e11 :: e12 :: [] =>
    if h1 = '-' && h2 = '-' && h3 = '-' && h4 = '-' then
      parseHexPairs [a1, a2, a3, a4, a5, a6, a7, a8,
                     b1, b2, b3, b4,
                     c1, c2, c3, c4,
                     d1, d2, d3, d4,
                     e1, e2, e3, e4, e5, e6, e7, e8, e9, e10, e11, e12]
    else none
  | _ => none

/-- ASCII lowering, for `strings.EqualFold` on the `urn:uuid:` prefix. -/
def asciiLower (c : Char) : Char :=
  if 65 ≤ c.toNat && c.toNat ≤ 90 then Char.ofNat (c.toNat + 32) else c

/-- Go `uuid.Parse` dispatching on the input length: 36 canonical,
45 with case-insensitive `urn:uuid:` prefix, 38 braced (the first and
last characters are dropped without inspection, exactly as in the
source), 32 plain hex; anything else is an invalid-length error. -/
def uuidParseBytes (s : List Char) : Option (List Nat) :=
  if s.length = 36 then parseCanonical s
  else if s.length = 45 then
    if (s.take 9).map asciiLower = "urn:uuid:".toList then
      parseCanonical (s.drop 9)
    else none
  else if s.length = 38 then parseCanonical ((s.drop 1).take 36)
  else if s.length = 32 then parseHexPairs s
  else none

/-- Lowercase hex digit of a nibble (the `hextable` of `encoding/hex`,
`"0123456789abcdef"`). -/
def hexDigit (d : Nat) : Char :=
  if d < 10 then Char.ofNat (48 + d) else Char.ofNat (87 + d)

/-- Two lowercase hex characters of one byte. -/
def encodeByte (b : Nat) : List Char :=
  [hexDigit (b / 16), hexDigit (b % 16)]

/-- Go `encodeHex` + `func (uuid UUID) String() string`: the canonical
lowercase rendering `xxxxxxxx-xxxx-xxxx-xxxx-xxxxxxxxxxxx`. -/
def uuidStringBytes : List Nat → List Char
  | [x0, x1, x2, x3, x4, x5, x6, x7, x8, x9, x10, x11, x12, x13, x14, x15] =>
    encodeByte x0 ++ encodeByte x1 ++ encodeByte x2 ++ encodeByte x3 ++ ['-'] ++
    encodeByte x4 ++ encodeByte x5 ++ ['-'] ++
    encodeByte x6 ++ encodeByte x7 ++ ['-'] ++
    encodeByte x8 ++ encodeByte x9 ++ ['-'] ++
    encodeByte x10 ++ encodeByte x11 ++ encodeByte x12 ++ encodeByte x13 ++
    encodeByte x14 ++ encodeByte x15
  | _ => []

/-- Go `func (t TaskID) String() string { return uuid.UUID(t).String() }` -/
def TaskID.render (t : TaskID) : List Char :=
  uuidStringBytes t.bytes

theorem hexVal_le {c : Char} {v : Nat} (h : hexVal c = some v) : v ≤ 15 := by
  unfold hexVal at h
  split at h
  · rename_i h1; simp only [Option.some.injEq] at h; simp at h1; omega
  · rename_i h1
    split at h
    · rename_i h2; simp only [Option.some.injEq] at h; simp at h2; omega
    · rename_i h2
      split at h
      · rename_i h3; simp only [Option.some.injEq] at h; simp at h3; omega
      · simp at h

theorem xtob_lt {c1 c2 : Char} {b : Nat} (h : xtob c1 c2 = some b) : b < 256 := by
  unfold xtob at h
  cases h1 : hexVal c1 with
  | none => rw [h1] at h; simp at h
  | some hv =>
    cases h2 : hexVal c2 with
    | none => rw [h1, h2] at h; simp at h
    | some lv =>
      rw [h1, h2] at h
      simp at h
      have hv16 : hv ≤ 15 := hexVal_le h1
      have lv16 : lv ≤ 15 := hexVal_le h2
      omega

theorem parseHexPairs_spec :
    ∀ (s : List Char) (l : List Nat), parseHexPairs s = some l →
      2 * l.length = s.length ∧ ∀ b ∈ l, b < 256
  | [], l, h => by
    simp [parseHexPairs] at h
    subst h
    simp
  | [c], l, h => by
    simp [parseHexPairs] at h
  | c1 :: c2 :: rest, l, h => by
    unfold parseHexPairs at h
    cases hx : xtob c1 c2 with
    | none => rw [hx] at h; simp at h
    | some b =>
      rw [hx] at h
      cases hr : parseHexPairs rest with
      | none => rw [hr] at h; simp at h
      | some bs =>
        rw [hr] at h
        simp at h
        subst h
        have ih := parseHexPairs_spec rest bs hr
        refine ⟨by simp; omega, ?_⟩
        intro x hx2
        rcases List.mem_cons.mp hx2 with h1 | h2
        · subst h1; exact xtob_lt hx
        · exact ih.2 x h2

theorem parseHexPairs_length {s : List Char} {l : List Nat}
    (h : parseHexPairs s = some l) : 2 * l.length = s.length :=
  (parseHexPairs_spec s l h).1

theorem parseHexPairs_lt {s : List Char} {l : List Nat}
    (h : parseHexPairs s = some l) : ∀ b ∈ l, b < 256 :=
  (parseHexPairs_spec s l h).2

theorem parseCanonical_length {s : List Char} {l : List Nat}
    (h : parseCanonical s = some l) : l.length = 16 := by
  unfold parseCanonical at h
  split at h
  · split at h
    · have := parseHexPairs_length h
      simp at this
      omega
    · simp at h
  · simp at h

theorem parseCanonical_lt {s : List Char} {l : List Nat}
    (h : parseCanonical s = some l) : ∀ b ∈ l, b < 256 := by
  unfold parseCanonical at h
  split at h
  · split at h
    · exact parseHexPairs_lt h
    · simp at h
  · simp at h

theorem uuidParseBytes_length {s : List Char} {l : List Nat}
    (h : uuidParseBytes s = some l) : l.length = 16 := by
  unfold uuidParseBytes at h
  split at h
  · exact parseCanonical_length h
  · split at h
    · split at h
      · exact parseCanonical_length h
      · simp at h
    · split at h
      · exact parseCanonical_length h
      · split at h
        · have := parseHexPairs_length h
          omega
        · simp at h

theorem uuidParseBytes_lt {s : List Char} {l : List Nat}
    (h : uuidParseBytes s = some l) : ∀ b ∈ l, b < 256 := by
  unfold uuidParseBytes at h
  split at h
  · exact parseCanonical_lt h
  · split at h
    · split at h
      · exact parseCanonical_lt h
      · simp at h
    · split at h
      · exact parseCanonical_lt h
      · split at h
        · exact parseHexPairs_lt h
        · simp at h

/-- Go `func ParseTaskID(id string) (TaskID, error)`: `uuid.Parse` wrapped
into the `TaskID` type; `none` models the `(TaskID(uuid.Nil), err)`
failure return. -/
def ParseTaskID (s : List Char) : Option TaskID :=
  match h : uuidParseBytes s with
  | some l => some ⟨l, uuidParseBytes_length h, uuidParseBytes_lt h⟩
  | none => none

/-! ## The Task entity (task.go) -/

/-- Go `unicode.IsSpace`, as used by `strings.TrimSpace`: Latin-1 spaces
`\t \n \v \f \r ' '` U+0085 U+00A0 and the Unicode White_Space
code points above Latin-1. -/
def goIsSpace (c : Char) : Bool :=
  (9 ≤ c.toNat && c.toNat ≤ 13) || c.toNat = 32 || c.toNat = 0x85 ||
    c.toNat = 0xA0 || c.toNat = 0x1680 ||
    (0x2000 ≤ c.toNat && c.toNat ≤ 0x200A) || c.toNat = 0x2028 ||
    c.toNat = 0x2029 || c.toNat = 0x202F || c.toNat = 0x205F ||
    c.toNat = 0x3000

/-- Go `strings.TrimSpace`: drop leading and trailing white space. -/
def trimSpace (s : String) : String :=
  String.mk (((s.data.dropWhile goIsSpace).reverse.dropWhile goIsSpace).reverse)

/-- The Task struct of task.go, with `time.Time` as `Int` and the Go
`int` counter as `Int`. -/
structure Task where
  ID : TaskID
  CreatedAt : Int
  Title : String
  Notes : String
  Status : TaskStatus
  Tags : List String
  DueDate : Option Int
  CompletedAt : Option Int
  DeferredCount : Int

/-- Go `func NewTask(title string, tags []string) (*Task, error)`.
The generated `uuid.New()` and `time.Now()` effects are the `id` and
`now` parameters; the defensive copy of `tags` is the identity on Lean
lists (both nil and an empty slice are `[]`). -/
def NewTask (title : String) (tags : List String) (id : TaskID) (now : Int) :
    Except GoErr Task :=
  if trimSpace title = "" then .error .ErrEmptyTitle
  else .ok
    { ID := id
      CreatedAt := now
      Title := trimSpace title
      Notes := ""
      Status := StatusPool
      Tags := tags
      DueDate := none
      CompletedAt := none
      DeferredCount := 0 }

/-! ## The task filter (task_filter.go) -/

/-- The TaskFilter struct: optional status, required tags, inclusive
due-date bounds, and the advisory result cap `Limit`. -/
structure TaskFilter where
  Status : Option TaskStatus
  Tags : List String
  DueAfter : Option Int
  DueBefore : Option Int
  Limit : Int

/-- Go `func containsAllTags(taskTags, filterTags []string) bool`: empty
`filterTags` matches; otherwise every required tag must be present in
`taskTags` (the Go map-based lookup is membership). -/
def containsAllTags (taskTags filterTags : List String) : Bool :=
  if filterTags.length = 0 then true
  else filterTags.all fun requiredTag => taskTags.contains requiredTag

/-- Go `func (f TaskFilter) Matches(t *Task) bool`: the four fail-fast
guards of the source, in order — status, tags, `DueAfter`
(`t.DueDate.Before(*f.DueAfter)` rejects), `DueBefore`
(`t.DueDate.After(*f.DueBefore)` rejects); `Limit` is never read. -/
def TaskFilter.Matches (f : TaskFilter) (t : Task) : Bool :=
  (match f.Status with
   | some s => t.Status == s
   | none => true) &&
  (if f.Tags.length > 0 then containsAllTags t.Tags f.Tags else true) &&
  (match f.DueAfter, t.DueDate with
   | some a, some d => !(d < a : Bool)
   | some _, none => false
   | none, _ => true) &&
  (match f.DueBefore, t.DueDate with
   | some b, some d => !(b < d : Bool)
   | some _, none => false
   | none, _ => true)

/-! ## Task lifecycle transitions

The transition methods `Pick`, `Defer` and `Complete` are specified in
§4.1 of the design but their implementation file is not among the
sources; they are modelled from the spec below.  Each method mutates
the receiver and returns an error; here it returns the error
(`none` = nil) together with the resulting task. -/

/-- Modelled from the spec: `pick()` — `pool → today`; `today → today`
idempotent; on a `done` task it fails with the invalid-state-transition
error and leaves the task unchanged.  (The implementation of this Task
method is described in §4.1 of the design document but is not among the
source files.) -/
def Task.pick (t : Task) : Option GoErr × Task :=
  if t.Status = StatusDone then (some .ErrInvalidStateTransition, t)
  else (none, { t with Status := StatusToday })

/-- Modelled from the spec: `defer()` — `today → pool` incrementing
`DeferredCount` by exactly 1; `pool → pool` idempotent with no
increment; on a `done` task it fails with the invalid-state-transition
error and leaves the task unchanged.  (The implementation of this Task
method is described in §4.1 of the design document but is not among the
source files.) -/
def Task.deferBack (t : Task) : Option GoErr × Task :=
  if t.Status = StatusDone then (some .ErrInvalidStateTransition, t)
  else if t.Status = StatusToday then
    (none, { t with Status := StatusPool, DeferredCount := t.DeferredCount + 1 })
  else (none, t)

/-- Modelled from the spec: `complete()` — any non-done status `→ done`
setting `CompletedAt` to the current time; `done → done` is idempotent
and does not overwrite `CompletedAt`.  (The implementation of this Task
method is described in §4.1 of the design document but is not among the
source files.) -/
def Task.complete (t : Task) (now : Int) : Option GoErr × Task :=
  if t.Status = StatusDone then (none, t)
  else (none, { t with Status := StatusDone, CompletedAt := some now })

/-! ## Helper lemmas -/

theorem containsAllTags_eq_true {taskTags filterTags : List String} :
    containsAllTags taskTags filterTags = true ↔
      ∀ tag ∈ filterTags, tag ∈ taskTags := by
  unfold containsAllTags
  split
  · rename_i h
    rw [List.length_eq_zero] at h
    subst h
    simp
  · simp only [List.all_eq_true]
    constructor
    · intro h tag htag
      exact List.elem_iff.mp (h tag htag)
    · intro h tag htag
      exact List.elem_iff.mpr (h tag htag)

theorem trimList_idem (p : Char → Bool) (l : List Char) :
    List.rdropWhile p ((List.rdropWhile p (l.dropWhile p)).dropWhile p) =
      List.rdropWhile p (l.dropWhile p) := by
  have hmm : (l.dropWhile p).dropWhile p = l.dropWhile p :=
    List.dropWhile_idempotent p l
  have hr : (List.rdropWhile p (l.dropWhile p)).dropWhile p =
      List.rdropWhile p (l.dropWhile p) := by
    rw [List.dropWhile_eq_self_iff]
    intro hl
    have hpre : List.rdropWhile p (l.dropWhile p) <+: l.dropWhile p :=
      List.rdropWhile_prefix _ _
    have hl2 : 0 < (l.dropWhile p).length := lt_of_lt_of_le hl hpre.length_le
    have h0 := (List.dropWhile_eq_self_iff.mp hmm) hl2
    simpa [List.get_eq_getElem, hpre.getElem hl] using h0
  rw [hr, List.rdropWhile_idempotent]

theorem trimSpace_data (s : String) :
    (trimSpace s).data = List.rdropWhile goIsSpace (s.data.dropWhile goIsSpace) := by
  simp [trimSpace, List.rdropWhile]

theorem trimSpace_idem (s : String) : trimSpace (trimSpace s) = trimSpace s := by
  apply String.ext
  simp only [trimSpace_data]
  exact trimList_idem goIsSpace s.data

/-- A concrete completed task, used as a witness input. -/
def doneTask : Task :=
  { ID := uuidNil, CreatedAt := 0, Title := "ship release", Notes := "",
    Status := StatusDone, Tags := ["work"], DueDate := some 10,
    CompletedAt := some 5, DeferredCount := 2 }

/-! ## Claim theorems -/

/-- Claim C1: `TaskFilter.Matches` returns true iff all three criteria
hold — the filter status is unset or equals the task status exactly;
the filter tag list is empty or every filter tag occurs among the task
tags; and for each set due-date bound the task has a due date lying
inclusively within the bound (no due date is rejected whenever a bound
is set). -/
theorem matches_iff_criteria (f : TaskFilter) (t : Task) :
    f.Matches t = true ↔
      ((f.Status = none ∨ f.Status = some t.Status) ∧
       (f.Tags = [] ∨ ∀ tag ∈ f.Tags, tag ∈ t.Tags) ∧
       (∀ a, f.DueAfter = some a → ∃ d, t.DueDate = some d ∧ a ≤ d) ∧
       (∀ b, f.DueBefore = some b → ∃ d, t.DueDate = some d ∧ d ≤ b)) := by
  unfold TaskFilter.Matches
  cases hs : f.Status <;> cases hT : f.Tags <;> cases ha : f.DueAfter <;>
    cases hb : f.DueBefore <;> cases hd : t.DueDate <;>
      simp [containsAllTags_eq_true, Int.not_lt, @eq_comm _ t.Status, and_assoc]

/-- Claim C1 witness: a filter with all criteria set matches a
satisfying task. -/
theorem matches_iff_criteria_witness :
    TaskFilter.Matches
      { Status := some StatusDone, Tags := ["work"], DueAfter := some 3,
        DueBefore := some 12, Limit := 1 } doneTask = true :=
  (matches_iff_criteria _ doneTask).mpr (by
    refine ⟨Or.inr rfl, Or.inr ?_, ?_, ?_⟩
    · intro tag htag
      simp at htag
      simp [doneTask, htag]
    · intro a ha
      exact ⟨10, rfl, by simp at ha; omega⟩
    · intro b hb
      exact ⟨10, rfl, by simp at hb; omega⟩)

/-- Claim C2: for every title whose trimmed form is non-empty the
factory `NewTask` succeeds, and the returned task has status pool, the
given creation time, empty notes, unset due date and completion time,
a zero deferred counter, and the freshly generated identifier. -/
theorem newTask_success_defaults (title : String) (tags : List String)
    (id : TaskID) (now : Int) (h : trimSpace title ≠ "") :
    NewTask title tags id now = .ok
      { ID := id, CreatedAt := now, Title := trimSpace title, Notes := "",
        Status := StatusPool, Tags := tags, DueDate := none,
        CompletedAt := none, DeferredCount := 0 } := by
  unfold NewTask
  rw [if_neg h]

/-- Claim C2 witness: the factory applied to a concrete non-blank
title. -/
theorem newTask_success_defaults_witness :
    trimSpace "  Buy milk  " ≠ "" ∧
    NewTask "  Buy milk  " ["home"] uuidNil 7 = .ok
      { ID := uuidNil, CreatedAt := 7, Title := trimSpace "  Buy milk  ",
        Notes := "", Status := StatusPool, Tags := ["home"], DueDate := none,
        CompletedAt := none, DeferredCount := 0 } :=
  ⟨by decide, newTask_success_defaults "  Buy milk  " ["home"] uuidNil 7 (by decide)⟩

/-- Claim C3: `NewTask` fails with `ErrEmptyTitle` iff the title trims
to the empty string; on success the stored title is the trimmed title,
so every constructed task has a non-empty post-trim title. -/
theorem newTask_empty_title_iff (title : String) (tags : List String)
    (id : TaskID) (now : Int) :
    (NewTask title tags id now = .error GoErr.ErrEmptyTitle ↔
      trimSpace title = "") ∧
    ∀ task, NewTask title tags id now = .ok task →
      task.Title = trimSpace title ∧ trimSpace task.Title ≠ "" := by
  constructor
  · unfold NewTask
    split
    · rename_i h
      simp [h]
    · rename_i h
      simp [h]
  · intro task htask
    unfold NewTask at htask
    split at htask
    · exact absurd htask (by simp)
    · rename_i hne
      simp only [Except.ok.injEq] at htask
      subst htask
      refine ⟨rfl, ?_⟩
      show trimSpace (trimSpace title) ≠ ""
      rw [trimSpace_idem]
      exact hne

/-- Claim C3 witness: a whitespace-only title is rejected with the
empty-title error. -/
theorem newTask_empty_title_iff_witness :
    NewTask " \t " [] uuidNil 0 = .error GoErr.ErrEmptyTitle :=
  (newTask_empty_title_iff " \t " [] uuidNil 0).1.mpr (by decide)

/-- Claim C4: `TaskStatus.Valid` accepts exactly the three values
"pool", "today", "done"; the empty string and uppercase or
whitespace-padded variants are all invalid. -/
theorem taskStatus_valid_iff :
    (∀ s : TaskStatus, s.Valid = true ↔
      s = "pool" ∨ s = "today" ∨ s = "done") ∧
    TaskStatus.Valid "" = false ∧ TaskStatus.Valid "POOL" = false ∧
    TaskStatus.Valid "Done" = false ∧ TaskStatus.Valid " pool" = false ∧
    TaskStatus.Valid "pool " = false := by
  refine ⟨fun s => ?_, by decide, by decide, by decide, by decide, by decide⟩
  unfold TaskStatus.Valid StatusPool StatusToday StatusDone
  simp only [Bool.or_eq_true, beq_iff_eq, or_assoc]

/-- Claim C5: on a task whose status is done, `pick()` and `defer()`
each fail with the invalid-state-transition error and return the task
entirely unchanged, while `complete()` is the identical idempotent
transition. -/
theorem done_rejects_pick_and_defer (t : Task) (h : t.Status = StatusDone) :
    t.pick = (some GoErr.ErrInvalidStateTransition, t) ∧
    t.deferBack = (some GoErr.ErrInvalidStateTransition, t) ∧
    ∀ now, t.complete now = (none, t) := by
  refine ⟨?_, ?_, fun now => ?_⟩ <;>
    simp [Task.pick, Task.deferBack, Task.complete, h]

/-- Claim C5 witness: the rejection on a concrete completed task. -/
theorem done_rejects_pick_and_defer_witness :
    doneTask.Status = StatusDone ∧
    doneTask.pick = (some GoErr.ErrInvalidStateTransition, doneTask) :=
  ⟨rfl, (done_rejects_pick_and_defer doneTask rfl).1⟩

/-- Claim C6: the result-count cap `Limit` never influences whether a
task matches: `Matches` gives the same answer for any two values of the
cap. -/
theorem matches_ignores_limit (f : TaskFilter) (t : Task) (a b : Int) :
    TaskFilter.Matches { f with Limit := a } t =
      TaskFilter.Matches { f with Limit := b } t := rfl

/-- Claim C7: the five domain error sentinels are pairwise distinct, so
callers can branch on the error kind by comparing values. -/
theorem domain_errors_pairwise_distinct :
    GoErr.ErrTaskNotFound ≠ GoErr.ErrInvalidStatus ∧
    GoErr.ErrTaskNotFound ≠ GoErr.ErrInvalidStateTransition ∧
    GoErr.ErrTaskNotFound ≠ GoErr.ErrEmptyTitle ∧
    GoErr.ErrTaskNotFound ≠ GoErr.ErrDuplicateTaskID ∧
    GoErr.ErrInvalidStatus ≠ GoErr.ErrInvalidStateTransition ∧
    GoErr.ErrInvalidStatus ≠ GoErr.ErrEmptyTitle ∧
    GoErr.ErrInvalidStatus ≠ GoErr.ErrDuplicateTaskID ∧
    GoErr.ErrInvalidStateTransition ≠ GoErr.ErrEmptyTitle ∧
    GoErr.ErrInvalidStateTransition ≠ GoErr.ErrDuplicateTaskID ∧
    GoErr.ErrEmptyTitle ≠ GoErr.ErrDuplicateTaskID := by
  decide

/-- Claim C8: identifier equality is value equality — `Equals` holds
exactly when the two 16-byte values coincide, `NotEquals` is its exact
negation, and `IsEmpty` holds exactly at the all-zero sentinel. -/
theorem taskID_value_equality :
    (∀ a b : TaskID, (a.Equals b = true ↔ a = b) ∧
      a.NotEquals b = !(a.Equals b)) ∧
    ∀ a : TaskID, a.IsEmpty = true ↔ a = uuidNil := by
  constructor
  · intro a b
    refine ⟨?_, rfl⟩
    unfold TaskID.Equals
    constructor
    · intro h
      exact TaskID.ext' (by simpa using h)
    · intro h
      subst h
      simp
  · intro a
    unfold TaskID.IsEmpty
    constructor
    · intro h
      exact TaskID.ext' (by simpa using h)
    · intro h
      subst h
      simp

/-! ## Round-trip lemmas for rendering and parsing -/

theorem hexVal_hexDigit {d : Nat} (hd : d < 16) : hexVal (hexDigit d) = some d := by
  interval_cases d <;> decide

theorem xtob_encodeByte {b : Nat} (hb : b < 256) :
    xtob (hexDigit (b / 16)) (hexDigit (b % 16)) = some b := by
  have h1 : b / 16 < 16 := by omega
  have h2 : b % 16 < 16 := Nat.mod_lt _ (by norm_num)
  unfold xtob
  rw [hexVal_hexDigit h1, hexVal_hexDigit h2]
  simp
  omega

theorem parseHexPairs_append_pair {b : Nat} (hb : b < 256) {rest : List Char}
    {l : List Nat} (h : parseHexPairs rest = some l) :
    parseHexPairs (hexDigit (b / 16) :: hexDigit (b % 16) :: rest) =
      some (b :: l) := by
  unfold parseHexPairs
  rw [xtob_encodeByte hb, h]

theorem uuidParseBytes_of_length_36 {s : List Char} (h : s.length = 36) :
    uuidParseBytes s = parseCanonical s := by
  unfold uuidParseBytes
  rw [if_pos h]

theorem render_parse_bytes (t : TaskID) :
    uuidParseBytes t.render = some t.bytes := by
  obtain ⟨l, hlen, hlt⟩ := t
  rcases l with _ | ⟨x0, l⟩
  · simp at hlen
  rcases l with _ | ⟨x1, l⟩
  · simp at hlen
  rcases l with _ | ⟨x2, l⟩
  · simp at hlen
  rcases l with _ | ⟨x3, l⟩
  · simp at hlen
  rcases l with _ | ⟨x4, l⟩
  · simp at hlen
  rcases l with _ | ⟨x5, l⟩
  · simp at hlen
  rcases l with _ | ⟨x6, l⟩
  · simp at hlen
  rcases l with _ | ⟨x7, l⟩
  · simp at hlen
  rcases l with _ | ⟨x8, l⟩
  · simp at hlen
  rcases l with _ | ⟨x9, l⟩
  · simp at hlen
  rcases l with _ | ⟨x10, l⟩
  · simp at hlen
  rcases l with _ | ⟨x11, l⟩
  · simp at hlen
  rcases l with _ | ⟨x12, l⟩
  · simp at hlen
  rcases l with _ | ⟨x13, l⟩
  · simp at hlen
  rcases l with _ | ⟨x14, l⟩
  · simp at hlen
  rcases l with _ | ⟨x15, l⟩
  · simp at hlen
  rcases l with _ | ⟨y, l⟩
  · have h0 : x0 < 256 := hlt x0 (by simp)
    have h1 : x1 < 256 := hlt x1 (by simp)
    have h2 : x2 < 256 := hlt x2 (by simp)
    have h3 : x3 < 256 := hlt x3 (by simp)
    have h4 : x4 < 256 := hlt x4 (by simp)
    have h5 : x5 < 256 := hlt x5 (by simp)
    have h6 : x6 < 256 := hlt x6 (by simp)
    have h7 : x7 < 256 := hlt x7 (by simp)
    have h8 : x8 < 256 := hlt x8 (by simp)
    have h9 : x9 < 256 := hlt x9 (by simp)
    have h10 : x10 < 256 := hlt x10 (by simp)
    have h11 : x11 < 256 := hlt x11 (by simp)
    have h12 : x12 < 256 := hlt x12 (by simp)
    have h13 : x13 < 256 := hlt x13 (by simp)
    have h14 : x14 < 256 := hlt x14 (by simp)
    have h15 : x15 < 256 := hlt x15 (by simp)
    simp only [TaskID.render, uuidStringBytes, encodeByte, List.cons_append,
      List.nil_append]
    rw [uuidParseBytes_of_length_36 (by simp)]
    simp only [parseCanonical]
    rw [if_pos (by decide)]
    exact parseHexPairs_append_pair h0 (parseHexPairs_append_pair h1
      (parseHexPairs_append_pair h2 (parseHexPairs_append_pair h3
      (parseHexPairs_append_pair h4 (parseHexPairs_append_pair h5
      (parseHexPairs_append_pair h6 (parseHexPairs_append_pair h7
      (parseHexPairs_append_pair h8 (parseHexPairs_append_pair h9
      (parseHexPairs_append_pair h10 (parseHexPairs_append_pair h11
      (parseHexPairs_append_pair h12 (parseHexPairs_append_pair h13
      (parseHexPairs_append_pair h14 (parseHexPairs_append_pair h15
        rfl)))))))))))))))
  · simp at hlen

theorem ParseTaskID_eq_some_iff {s : List Char} {u : TaskID} :
    ParseTaskID s = some u ↔ uuidParseBytes s = some u.bytes := by
  unfold ParseTaskID
  split
  · rename_i l heq
    constructor
    · intro h
      have h2 : l = u.bytes := congrArg TaskID.bytes (Option.some.inj h)
      rw [heq, h2]
    · intro h
      have h2 : l = u.bytes := Option.some.inj (heq.symm.trans h)
      exact congrArg some (TaskID.ext' h2)
  · rename_i heq
    rw [heq]
    simp

/-- Claim C9: rendering then parsing an identifier loses nothing —
`ParseTaskID (t.String())` succeeds and returns `t` itself, and any
identifier obtained by parsing an accepted string round-trips through
its canonical rendering unchanged. -/
theorem parse_render_roundtrip :
    (∀ t : TaskID, ParseTaskID t.render = some t) ∧
    ∀ (s : List Char) (u : TaskID), ParseTaskID s = some u →
      ParseTaskID u.render = some u := by
  have h1 : ∀ t : TaskID, ParseTaskID t.render = some t := fun t =>
    ParseTaskID_eq_some_iff.mpr (render_parse_bytes t)
  exact ⟨h1, fun s u _ => h1 u⟩

/-- Claim C9 witness: round-trip through the canonical all-zero
rendering, with the parse hypothesis discharged on a concrete string. -/
theorem parse_render_roundtrip_witness :
    ParseTaskID ("00000000-0000-0000-0000-000000000000".toList) = some uuidNil ∧
    ParseTaskID (TaskID.render uuidNil) = some uuidNil := by
  constructor
  · rfl
  · exact parse_render_roundtrip.2
      ("00000000-0000-0000-0000-000000000000".toList) uuidNil (by rfl)

/-- Claim C10: `ParseTaskID` accepts the all-zero UUID string and the
returned identifier satisfies `IsEmpty`, so the reserved sentinel is
reachable from external string input. -/
theorem parse_allzero_isEmpty :
    ParseTaskID ("00000000-0000-0000-0000-000000000000".toList) =
      some uuidNil ∧
    uuidNil.IsEmpty = true :=
  ⟨rfl, rfl⟩

end Togo
